import Mathlib

set_option maxRecDepth 8000

/- Shallow embedding of the virtual file system and the cd / command
   handling logic of src/index.tsx (COMMAND-LINE-TUTOR).

   The JS nested-object tree is modelled by FSNode; the top-level
   fileSystem wrapper object (which has the single key "~" and no
   "type" field) is modelled by JSLevel.top; the JS value undefined
   that arises from reading a missing property is JSLevel.undef; the
   null returned by getDirectory is Option.none; a thrown TypeError is
   Except.error. -/

inductive FSNode where
  | file : FSNode
  | dir : List (String × FSNode) → FSNode

/- The seeded tree of src/index.tsx lines 14-33. -/

def docsNode : FSNode := .dir [("report.docx", .file)]

def imagesNode : FSNode := .dir [("photo.jpg", .file), ("vacation.png", .file)]

def musicNode : FSNode := .dir []

def homeDir : FSNode :=
  .dir [("documents", docsNode), ("images", imagesNode), ("music", musicNode),
        ("file1.txt", .file)]

/- A JS value that the walk variable currentLevel of getDirectory can
   hold: the top-level fileSystem object, a tree node, or undefined. -/

inductive JSLevel where
  | top : JSLevel
  | node : FSNode → JSLevel
  | undef : JSLevel

/- JS object property lookup on a children object (insertion order,
   unique keys). -/

def lookupChild : List (String × FSNode) → String → Option FSNode
  | [], _ => none
  | (k, v) :: rest, s => if s = k then some v else lookupChild rest s

/- The loop of getDirectory (src/index.tsx lines 190-202).
   For part = "~" the code runs currentLevel = currentLevel["~"]
   unconditionally: on the top object this yields the home tree, on a
   node object (whose only keys are type and children) it yields
   undefined, and on undefined it throws a TypeError (Except.error).
   Otherwise the guarded branch steps into children, and every other
   case returns null (Option.none). -/

def getDirectoryAux : JSLevel → List String → Except Unit (Option JSLevel)
  | lvl, [] => .ok (some lvl)
  | lvl, part :: rest =>
    if part = "~" then
      match lvl with
      | .top => getDirectoryAux (.node homeDir) rest
      | .node _ => getDirectoryAux .undef rest
      | .undef => .error ()
    else
      match lvl with
      | .node (.dir cs) =>
        match lookupChild cs part with
        | some child => getDirectoryAux (.node child) rest
        | none => .ok none
      | _ => .ok none

def getDirectory (pathParts : List String) : Except Unit (Option JSLevel) :=
  getDirectoryAux .top pathParts

/- The truthiness-and-type test targetDir && targetDir.type === 'dir'
   of src/index.tsx line 223: null, undefined and File nodes are
   rejected, and so is the top wrapper object (it has no type key). -/

def isDirNode : Option JSLevel → Bool
  | some (.node (.dir _)) => true
  | _ => false

def isDirRes : Except Unit (Option JSLevel) → Bool
  | .ok lvl => isDirNode lvl
  | .error _ => false

def crashes (p : List String) : Bool :=
  match getDirectory p with
  | .error _ => true
  | .ok _ => false

def resolvesToDir (p : List String) : Bool := isDirRes (getDirectory p)

/- One iteration of the accumulation loop of handleCd
   (src/index.tsx lines 214-220). -/

def resolveStep (acc : List String) (part : String) : List String :=
  if part = ".." then (if 1 < acc.length then acc.dropLast else acc)
  else if part = "." then acc
  else if part = "" then acc
  else acc ++ [part]

def resolveSegs : List String → List String → List String
  | acc, [] => acc
  | acc, part :: rest => resolveSegs (resolveStep acc part) rest

/- JS String.prototype.split with a one-character separator or a
   character-class predicate, written by structural recursion on the
   character list so that concrete runs reduce in the kernel.  As in
   JS, splitting the empty string yields one empty piece, and
   adjacent separators yield empty pieces. -/

def splitCharsBy (p : Char → Bool) : List Char → List Char → List String
  | cur, [] => [String.mk cur.reverse]
  | cur, c :: cs =>
    if p c then String.mk cur.reverse :: splitCharsBy p [] cs
    else splitCharsBy p (c :: cur) cs

def splitSlash (s : String) : List String :=
  splitCharsBy (fun c => c = '/') [] s.data

/- JS arg.startsWith of the one-character string with the home
   sentinel: the first character is the sentinel. -/

def startsWithTilde (s : String) : Bool :=
  match s.data with
  | [] => false
  | c :: _ => c = '~'

/- newPathParts construction plus the accumulation loop
   (src/index.tsx lines 212-220). -/

def accumulate (path : List String) (arg : String) : List String :=
  let parts := if startsWithTilde arg then splitSlash arg else path ++ splitSlash arg
  resolveSegs [] parts

/- The outcome of one handleCd call: the value of currentPath
   afterwards, the error line appended on failure, whether the chat
   session was recreated, and the warning line appended when that
   recreation threw.  A TypeError escaping getDirectory is
   Except.error. -/

structure CdOutcome where
  newPath : List String
  errLine : Option String
  regenerated : Bool
  warnLine : Option String
deriving DecidableEq

def ctxWarnMsg : String :=
  "Error: Failed to update context for new directory. Terminal may not respond correctly."

def noSuchDirMsg (arg : String) : String :=
  "bash: cd: " ++ arg ++ ": No such file or directory"

/- handleCd (src/index.tsx lines 208-247).  regenThrows says whether
   the ai.chats.create call in the trailing try block throws; the
   catch keeps the committed path and appends ctxWarnMsg. -/

def handleCd (path : List String) (arg : String) (regenThrows : Bool) :
    Except Unit CdOutcome :=
  if arg = "" ∨ arg = "~" then
    .ok ⟨["~"], none, true, if regenThrows then some ctxWarnMsg else none⟩
  else
    match getDirectory (accumulate path arg) with
    | .error _ => .error ()
    | .ok lvl =>
      if isDirNode lvl then
        .ok ⟨accumulate path arg, none, true,
             if regenThrows then some ctxWarnMsg else none⟩
      else
        .ok ⟨path, some (noSuchDirMsg arg), false, none⟩

/- displayPath (src/index.tsx line 232). -/

def displayPath (p : List String) : String :=
  if p.length = 1 then "~" else "~/" ++ String.intercalate "/" (p.drop 1)

/- The nonempty initial pieces of a path: p.take 1, ..., p.take p.length. -/

def pathStems (p : List String) : List (List String) :=
  (List.range p.length).map (fun i => p.take (i + 1))

/- The CurrentPath invariant of the spec: starts with the home
   sentinel and every initial piece resolves to a Directory. -/

def pathInv (p : List String) : Bool :=
  decide (p.head? = some "~") && (pathStems p).all resolvesToDir

/- Run a sequence of cd commands (no regeneration failure), counting
   how often the chat session is recreated. -/

def runCdSeq : List String → Nat → List String → Except Unit (List String × Nat)
  | p, n, [] => .ok (p, n)
  | p, n, arg :: rest =>
    match handleCd p arg false with
    | .error _ => .error ()
    | .ok o => runCdSeq o.newPath (n + (if o.regenerated then 1 else 0)) rest

/- The session state touched by runCommand (src/index.tsx lines
   253-284): current path, the disabled flag of the input element, the
   number of chat recreations, and the terminal log. -/

inductive LogKind where
  | command : LogKind
  | response : LogKind
  | error : LogKind
deriving DecidableEq

structure Session where
  currentPath : List String
  inputDisabled : Bool
  regens : Nat
  log : List (LogKind × String)
deriving DecidableEq

/- How one chat.sendMessage call settles: a reply with some text
   (possibly empty, in which case nothing is printed), or a rejection
   or thrown error handled by the catch block. -/

inductive RemoteOutcome where
  | reply : String → RemoteOutcome
  | failure : String → RemoteOutcome

/- JS String.prototype.trim: drop whitespace from both ends. -/

def jsTrim (s : String) : String :=
  String.mk (((s.data.dropWhile (fun c => c.isWhitespace)).reverse.dropWhile
      (fun c => c.isWhitespace)).reverse)

/- JS trimmedCommand.split with a whitespace-run regex: on a trimmed
   string this is split-at-whitespace with empty pieces removed. -/

def tokenize (s : String) : List String :=
  (splitCharsBy (fun c => c.isWhitespace) [] s.data).filter (fun t => t ≠ "")

/- runCommand (src/index.tsx lines 253-284).  Empty input is a no-op;
   a cd line is handled locally by handleCd with the remaining tokens
   joined by single spaces; any other line disables input, sends the
   command, appends the reply or a formatted error, and the finally
   block re-enables input on every outcome. -/

def runCommand (s : Session) (command : String) (outcome : RemoteOutcome)
    (regenThrows : Bool) : Except Unit Session :=
  let trimmed := jsTrim command
  if trimmed = "" then .ok s
  else
    let s1 : Session := { s with log := s.log ++ [(LogKind.command, trimmed)] }
    let toks := tokenize trimmed
    if toks.headD "" = "cd" then
      match handleCd s1.currentPath (String.intercalate " " toks.tail) regenThrows with
      | .error _ => .error ()
      | .ok o =>
        .ok { s1 with
              currentPath := o.newPath,
              regens := s1.regens + (if o.regenerated then 1 else 0),
              log := s1.log
                ++ (o.errLine.toList.map (fun m => (LogKind.error, m)))
                ++ (o.warnLine.toList.map (fun m => (LogKind.error, m))) }
    else
      let s2 : Session := { s1 with inputDisabled := true }
      let s3 : Session :=
        match outcome with
        | .reply t =>
          if t ≠ "" then { s2 with log := s2.log ++ [(LogKind.response, t)] } else s2
        | .failure m =>
          { s2 with log := s2.log ++ [(LogKind.error, "Error: " ++ m)] }
      .ok { s3 with inputDisabled := false }

/- Decidable equality for Except so that concrete runs can be settled
   by decide. -/

def exceptDecEq {ε α : Type} [DecidableEq ε] [DecidableEq α] :
    DecidableEq (Except ε α) := fun a b =>
  match a, b with
  | .error e, .error f =>
    if h : e = f then .isTrue (by rw [h]) else .isFalse (fun hh => h (by cases hh; rfl))
  | .ok x, .ok y =>
    if h : x = y then .isTrue (by rw [h]) else .isFalse (fun hh => h (by cases hh; rfl))
  | .error _, .ok _ => .isFalse (fun hh => by cases hh)
  | .ok _, .error _ => .isFalse (fun hh => by cases hh)

instance {ε α : Type} [DecidableEq ε] [DecidableEq α] : DecidableEq (Except ε α) :=
  exceptDecEq

/- ------------------------------------------------------------------
   Helper lemmas
   ------------------------------------------------------------------ -/

/- Once the walk variable holds undefined, it never reaches a
   Directory again: the next segment either throws or returns null. -/

lemma walkDir_undef (rest : List String) :
    isDirRes (getDirectoryAux .undef rest) = false := by
  cases rest with
  | nil => rfl
  | cons a l =>
    by_cases h : a = "~"
    · subst h; rfl
    · simp [getDirectoryAux, isDirRes, isDirNode, h]

/- A walk standing on a File node never reaches a Directory. -/

lemma walkDir_file (rest : List String) :
    isDirRes (getDirectoryAux (.node .file) rest) = false := by
  cases rest with
  | nil => rfl
  | cons a l =>
    by_cases h : a = "~"
    · subst h; exact walkDir_undef l
    · simp [getDirectoryAux, isDirRes, isDirNode, h]

/- From the music directory (no children) only the empty remainder
   reaches a Directory. -/

lemma walkDir_music (rest : List String)
    (h : isDirRes (getDirectoryAux (.node musicNode) rest) = true) : rest = [] := by
  cases rest with
  | nil => rfl
  | cons a l =>
    exfalso
    by_cases ha : a = "~"
    · subst ha
      rw [show getDirectoryAux (.node musicNode) ("~" :: l) = getDirectoryAux .undef l
            from rfl] at h
      rw [walkDir_undef l] at h
      exact Bool.false_ne_true h
    · simp [getDirectoryAux, musicNode, lookupChild, isDirRes, isDirNode, ha] at h

/- From the documents directory (one File child) only the empty
   remainder reaches a Directory. -/

lemma walkDir_docs (rest : List String)
    (h : isDirRes (getDirectoryAux (.node docsNode) rest) = true) : rest = [] := by
  cases rest with
  | nil => rfl
  | cons a l =>
    exfalso
    by_cases ha : a = "~"
    · subst ha
      rw [show getDirectoryAux (.node docsNode) ("~" :: l) = getDirectoryAux .undef l
            from rfl] at h
      rw [walkDir_undef l] at h
      exact Bool.false_ne_true h
    · by_cases hr : a = "report.docx"
      · subst hr
        rw [show getDirectoryAux (.node docsNode) ("report.docx" :: l)
              = getDirectoryAux (.node .file) l from rfl] at h
        rw [walkDir_file l] at h
        exact Bool.false_ne_true h
      · simp [getDirectoryAux, docsNode, lookupChild, isDirRes, isDirNode, ha, hr] at h

/- From the images directory (two File children) only the empty
   remainder reaches a Directory. -/

lemma walkDir_images (rest : List String)
    (h : isDirRes (getDirectoryAux (.node imagesNode) rest) = true) : rest = [] := by
  cases rest with
  | nil => rfl
  | cons a l =>
    exfalso
    by_cases ha : a = "~"
    · subst ha
      rw [show getDirectoryAux (.node imagesNode) ("~" :: l) = getDirectoryAux .undef l
            from rfl] at h
      rw [walkDir_undef l] at h
      exact Bool.false_ne_true h
    · by_cases h1 : a = "photo.jpg"
      · subst h1
        rw [show getDirectoryAux (.node imagesNode) ("photo.jpg" :: l)
              = getDirectoryAux (.node .file) l from rfl] at h
        rw [walkDir_file l] at h
        exact Bool.false_ne_true h
      · by_cases h2 : a = "vacation.png"
        · subst h2
          rw [show getDirectoryAux (.node imagesNode) ("vacation.png" :: l)
                = getDirectoryAux (.node .file) l from rfl] at h
          rw [walkDir_file l] at h
          exact Bool.false_ne_true h
        · simp [getDirectoryAux, imagesNode, lookupChild, isDirRes, isDirNode,
                ha, h1, h2] at h

/- From the home directory the walk reaches a Directory exactly for
   the empty remainder or one of the three subdirectories. -/

lemma walkDir_home (rest : List String)
    (h : isDirRes (getDirectoryAux (.node homeDir) rest) = true) :
    rest = [] ∨ rest = ["documents"] ∨ rest = ["images"] ∨ rest = ["music"] := by
  cases rest with
  | nil => exact Or.inl rfl
  | cons a l =>
    by_cases ha : a = "~"
    · subst ha
      rw [show getDirectoryAux (.node homeDir) ("~" :: l) = getDirectoryAux .undef l
            from rfl] at h
      rw [walkDir_undef l] at h
      exact absurd h Bool.false_ne_true
    · by_cases h1 : a = "documents"
      · subst h1
        have hl : l = [] := walkDir_docs l h
        subst hl
        exact Or.inr (Or.inl rfl)
      · by_cases h2 : a = "images"
        · subst h2
          have hl : l = [] := walkDir_images l h
          subst hl
          exact Or.inr (Or.inr (Or.inl rfl))
        · by_cases h3 : a = "music"
          · subst h3
            have hl : l = [] := walkDir_music l h
            subst hl
            exact Or.inr (Or.inr (Or.inr rfl))
          · by_cases h4 : a = "file1.txt"
            · subst h4
              rw [show getDirectoryAux (.node homeDir) ("file1.txt" :: l)
                    = getDirectoryAux (.node .file) l from rfl] at h
              rw [walkDir_file l] at h
              exact absurd h Bool.false_ne_true
            · exfalso
              simp [getDirectoryAux, homeDir, lookupChild, isDirRes, isDirNode,
                    ha, h1, h2, h3, h4] at h

/- The seeded tree has exactly four resolvable Directory paths. -/

lemma resolvesToDir_enum (p : List String) (h : resolvesToDir p = true) :
    p = ["~"] ∨ p = ["~", "documents"] ∨ p = ["~", "images"] ∨ p = ["~", "music"] := by
  cases p with
  | nil => exact absurd h (by decide)
  | cons a l =>
    by_cases ha : a = "~"
    · subst ha
      have h' : isDirRes (getDirectoryAux (.node homeDir) l) = true := h
      rcases walkDir_home l h' with h0 | h0 | h0 | h0 <;> subst h0
      · exact Or.inl rfl
      · exact Or.inr (Or.inl rfl)
      · exact Or.inr (Or.inr (Or.inl rfl))
      · exact Or.inr (Or.inr (Or.inr rfl))
    · exfalso
      simp [resolvesToDir, getDirectory, getDirectoryAux, isDirRes, isDirNode, ha] at h

/- A path satisfying the invariant resolves (itself, being its own
   longest initial piece) to a Directory. -/

lemma pathInv_resolves (p : List String) (h : pathInv p = true) :
    resolvesToDir p = true := by
  have h2 := (Bool.and_eq_true _ _).mp h
  have hh : p.head? = some "~" := of_decide_eq_true h2.1
  have hne : p ≠ [] := by
    intro he; subst he; simp at hh
  have hlen : 0 < p.length := List.length_pos.mpr hne
  have hmem : p ∈ pathStems p := by
    unfold pathStems
    refine List.mem_map.mpr ⟨p.length - 1, List.mem_range.mpr (by omega), ?_⟩
    show p.take (p.length - 1 + 1) = p
    rw [show p.length - 1 + 1 = p.length from by omega, List.take_length]
  exact List.all_eq_true.mp h2.2 p hmem

/- A path satisfying the invariant is one of the four directory
   paths of the seeded tree. -/

lemma pathInv_enum (p : List String) (h : pathInv p = true) :
    p = ["~"] ∨ p = ["~", "documents"] ∨ p = ["~", "images"] ∨ p = ["~", "music"] :=
  resolvesToDir_enum p (pathInv_resolves p h)

/- One accumulation step keeps the leading home sentinel. -/

lemma resolveStep_head (acc : List String) (part : String)
    (h : acc.head? = some "~") : (resolveStep acc part).head? = some "~" := by
  unfold resolveStep
  by_cases h1 : part = ".."
  · rw [if_pos h1]
    split
    · next hlen =>
      rcases acc with _ | ⟨x, _ | ⟨y, l⟩⟩
      · simp at h
      · simp at hlen
      · exact h
    · exact h
  · rw [if_neg h1]
    by_cases h2 : part = "."
    · rw [if_pos h2]; exact h
    · rw [if_neg h2]
      by_cases h3 : part = ""
      · rw [if_pos h3]; exact h
      · rw [if_neg h3]
        rcases acc with _ | ⟨x, l⟩
        · simp at h
        · exact h

/- The whole accumulation loop keeps the leading home sentinel. -/

lemma resolveSegs_head (rest : List String) :
    ∀ acc : List String, acc.head? = some "~" →
      (resolveSegs acc rest).head? = some "~" := by
  induction rest with
  | nil => intro acc h; exact h
  | cons a l ih =>
    intro acc h
    exact ih (resolveStep acc a) (resolveStep_head acc a h)

/- ------------------------------------------------------------------
   Claim theorems
   ------------------------------------------------------------------ -/

/-- Claim C1: whenever resolution of the requested path returns a
falsy value or a File node (and does not throw), handleCd reports
the No-such-file-or-directory error naming the original argument,
leaves CurrentPath exactly as it was, and does not recreate the chat
session. -/
theorem cd_failure_nonmutating (p : List String) (arg : String) (rt : Bool)
    (hne : arg ≠ "")
    (hcr : crashes (accumulate p arg) = false)
    (hfail : resolvesToDir (accumulate p arg) = false) :
    handleCd p arg rt = .ok ⟨p, some (noSuchDirMsg arg), false, none⟩ := by
  have hnt : arg ≠ "~" := by
    intro he
    subst he
    have : resolvesToDir (accumulate p "~") = true := by
      rw [show accumulate p "~" = ["~"] from rfl]
      decide
    rw [this] at hfail
    exact Bool.noConfusion hfail
  unfold handleCd
  rw [if_neg (by
    intro hor
    rcases hor with h | h
    · exact hne h
    · exact hnt h)]
  cases hgd : getDirectory (accumulate p arg) with
  | error e =>
    exfalso
    unfold crashes at hcr
    rw [hgd] at hcr
    exact Bool.noConfusion hcr
  | ok lvl =>
    have hd : isDirNode lvl = false := by
      unfold resolvesToDir isDirRes at hfail
      rw [hgd] at hfail
      exact hfail
    simp [hd]

/-- Claim C1 witness: from the home directory, cd file1.txt targets a
File, fails with the expected message, and mutates nothing. -/
theorem cd_failure_nonmutating_witness :
    handleCd ["~"] "file1.txt" false
      = .ok ⟨["~"], some (noSuchDirMsg "file1.txt"), false, none⟩ :=
  cd_failure_nonmutating ["~"] "file1.txt" false (by decide) (by decide) (by decide)

/-- Claim C2 counterexample: running cd music, cd .., cd music from
the home directory recreates the chat session three times, not the
twice the claim states. -/
theorem cd_regen_count_cx :
    runCdSeq ["~"] 0 ["music", "..", "music"] ≠ .ok (["~", "music"], 2) := by
  decide

/-- Claim C2 amended: the sequence ends at the music directory and the
chat session is recreated exactly three times, once per successful cd
(the code recreates the session after every successful navigation,
including the cd .. step). -/
theorem cd_regen_count_three :
    runCdSeq ["~"] 0 ["music", "..", "music"] = .ok (["~", "music"], 3) := by
  decide

/-- Claim C3: path resolution is not total.  On the input
documents/~/~ from the home directory the tree walk of getDirectory
reads a property of the JS value undefined and throws a TypeError
instead of returning the NotFound result, so handleCd crashes. -/
theorem resolution_crash_on_tilde :
    handleCd ["~"] "documents/~/~" false = .error ()
    ∧ crashes ["~", "documents", "~", "~"] = true := by
  exact ⟨by decide, by decide⟩

/-- Claim C5: during accumulation a dot-dot segment pops the last
accumulated segment when more than the sentinel is present and is a
silent no-op when only the home sentinel remains; accumulation from a
sentinel-headed base always keeps the sentinel at the head, and
concretely cd ../../.. from the images directory lands on the home
directory. -/
theorem cd_never_ascends (acc rest b : List String)
    (h : acc.head? = some "~") (hb : 1 < b.length) :
    resolveSegs b (".." :: rest) = resolveSegs b.dropLast rest
    ∧ resolveSegs ["~"] (".." :: rest) = resolveSegs ["~"] rest
    ∧ (resolveSegs acc rest).head? = some "~"
    ∧ handleCd ["~", "images"] "../../.." false = .ok ⟨["~"], none, true, none⟩ := by
  refine ⟨?_, rfl, resolveSegs_head rest acc h, by decide⟩
  show resolveSegs (resolveStep b "..") rest = resolveSegs b.dropLast rest
  unfold resolveStep
  rw [if_pos rfl, if_pos hb]

/-- Claim C5 witness: concrete instance with base ["~"], one dot-dot
segment to process, and the two-segment images path for the pop. -/
theorem cd_never_ascends_witness :
    resolveSegs ["~", "images"] [".."] = resolveSegs (["~", "images"].dropLast) []
    ∧ resolveSegs ["~"] [".."] = resolveSegs ["~"] []
    ∧ (resolveSegs ["~"] []).head? = some "~"
    ∧ handleCd ["~", "images"] "../../.." false = .ok ⟨["~"], none, true, none⟩ :=
  cd_never_ascends ["~"] [] ["~", "images"] rfl (by decide)

/-- Claim C4: the CurrentPath invariant is preserved by every
non-crashing handleCd call: if the old path starts with the home
sentinel and every initial piece of it resolves to a Directory, the
same holds for the path handleCd leaves behind, because that path is
only ever the home path, a freshly resolved Directory path, or the
unchanged old path. -/
theorem cd_preserves_invariant (p : List String) (arg : String) (rt : Bool)
    (o : CdOutcome) (hp : pathInv p = true)
    (h : handleCd p arg rt = .ok o) :
    pathInv o.newPath = true := by
  unfold handleCd at h
  by_cases ha : arg = "" ∨ arg = "~"
  · rw [if_pos ha] at h
    injection h with h2
    subst h2
    show pathInv ["~"] = true
    decide
  · rw [if_neg ha] at h
    cases hgd : getDirectory (accumulate p arg) with
    | error e =>
      rw [hgd] at h
      exact Except.noConfusion h
    | ok lvl =>
      rw [hgd] at h
      by_cases hd : isDirNode lvl = true
      · simp only [hd, if_true] at h
        injection h with h2
        subst h2
        have hres : resolvesToDir (accumulate p arg) = true := by
          unfold resolvesToDir isDirRes
          rw [hgd]
          exact hd
        show pathInv (accumulate p arg) = true
        rcases resolvesToDir_enum _ hres with he | he | he | he <;> rw [he] <;> decide
      · simp only [hd, if_false, Bool.not_eq_true] at h
        rw [if_neg (by rw [Bool.not_eq_true] at hd; simp [hd])] at h
        injection h with h2
        subst h2
        exact hp

/-- Claim C4 witness: the invariant holds at the home path and is
preserved by the successful cd images step. -/
theorem cd_preserves_invariant_witness : pathInv ["~", "images"] = true :=
  cd_preserves_invariant ["~"] "images" false
    ⟨["~", "images"], none, true, none⟩ (by decide) (by decide)

/-- Claim C6: when recreating the chat session after a cd that did not
fail throws, the committed CurrentPath change stands exactly as in the
non-throwing run and the non-fatal context warning is appended. -/
theorem regen_failure_keeps_commit (p : List String) (arg : String) (o : CdOutcome)
    (h : handleCd p arg false = .ok o) (hsucc : o.errLine = none) :
    handleCd p arg true = .ok ⟨o.newPath, none, true, some ctxWarnMsg⟩ := by
  unfold handleCd at h ⊢
  by_cases ha : arg = "" ∨ arg = "~"
  · rw [if_pos ha] at h ⊢
    injection h with h2
    subst h2
    rfl
  · rw [if_neg ha] at h ⊢
    cases hgd : getDirectory (accumulate p arg) with
    | error e =>
      rw [hgd] at h
      exact Except.noConfusion h
    | ok lvl =>
      rw [hgd] at h
      by_cases hd : isDirNode lvl = true
      · simp only [hd, if_true] at h ⊢
        injection h with h2
        subst h2
        rfl
      · have hd' : isDirNode lvl = false := by
          cases hb : isDirNode lvl
          · rfl
          · exact absurd hb hd
        simp [hd'] at h
        subst h
        exact absurd hsucc (by simp)

/-- Claim C6 witness: cd documents succeeds; with a throwing
regeneration the same new path is committed and the warning appears. -/
theorem regen_failure_keeps_commit_witness :
    handleCd ["~"] "documents" true
      = .ok ⟨(CdOutcome.mk ["~", "documents"] none true none).newPath, none, true,
             some ctxWarnMsg⟩ :=
  regen_failure_keeps_commit ["~"] "documents"
    ⟨["~", "documents"], none, true, none⟩ (by decide) rfl

/-- Claim C7: from any path satisfying the CurrentPath invariant,
cd . resolves back to that very path and succeeds, and single dot and
empty segments are dropped by the accumulation loop in general. -/
theorem resolve_dot_idempotent (p acc rest : List String) (hp : pathInv p = true) :
    handleCd p "." false = .ok ⟨p, none, true, none⟩
    ∧ resolveSegs acc ("." :: rest) = resolveSegs acc rest
    ∧ resolveSegs acc ("" :: rest) = resolveSegs acc rest := by
  refine ⟨?_, rfl, rfl⟩
  rcases pathInv_enum p hp with he | he | he | he <;> subst he <;> decide

/-- Claim C7 witness: concrete instance at the music directory. -/
theorem resolve_dot_idempotent_witness :
    handleCd ["~", "music"] "." false = .ok ⟨["~", "music"], none, true, none⟩
    ∧ resolveSegs ["~"] ["."] = resolveSegs ["~"] []
    ∧ resolveSegs ["~"] [""] = resolveSegs ["~"] [] :=
  resolve_dot_idempotent ["~", "music"] ["~"] [] (by decide)

/-- Claim C8: displayPath round-trips through resolution: for every
path satisfying the CurrentPath invariant, feeding its rendered form
(the home sentinel alone, or the slash-joined deeper form) back to
handleCd resolves to the very same path. -/
theorem displayPath_roundtrip (p : List String) (hp : pathInv p = true) :
    handleCd p (displayPath p) false = .ok ⟨p, none, true, none⟩ := by
  rcases pathInv_enum p hp with he | he | he | he <;> subst he <;> decide

/-- Claim C8 witness: concrete round-trip at the images directory. -/
theorem displayPath_roundtrip_witness :
    handleCd ["~", "images"] (displayPath ["~", "images"]) false
      = .ok ⟨["~", "images"], none, true, none⟩ :=
  displayPath_roundtrip ["~", "images"] (by decide)

/-- Claim C9: for every non-empty, non-cd command line, runCommand
leaves the input enabled again (Idle) on every outcome of the remote
call, including rejections, because the re-enable runs unconditionally
after the send. -/
theorem remote_always_reenables (s : Session) (command : String)
    (outcome : RemoteOutcome) (rt : Bool) (o : Session)
    (hne : jsTrim command ≠ "")
    (hnotcd : (tokenize (jsTrim command)).headD "" ≠ "cd")
    (h : runCommand s command outcome rt = .ok o) :
    o.inputDisabled = false := by
  simp only [runCommand] at h
  rw [if_neg hne, if_neg hnotcd] at h
  injection h with h2
  subst h2
  rfl

/-- Claim C9 witness: an ls command whose remote call throws still
ends with the input enabled. -/
theorem remote_always_reenables_witness :
    (Session.mk ["~"] false 0
      [(LogKind.command, "ls"), (LogKind.error, "Error: boom")]).inputDisabled
      = false :=
  remote_always_reenables ⟨["~"], false, 0, []⟩ "ls" (.failure "boom") false
    ⟨["~"], false, 0, [(LogKind.command, "ls"), (LogKind.error, "Error: boom")]⟩
    (by decide) (by decide) (by decide)

/-- Claim C10: a cd line with several whitespace-separated tokens
joins them with single spaces into one path argument: cd foo   bar
tokenizes to three tokens, the argument handed to handleCd is the
single string foo bar, resolution targets the single child entry of
that name, and the run fails naming foo bar. -/
theorem cd_joins_tokens :
    tokenize "cd foo   bar" = ["cd", "foo", "bar"]
    ∧ String.intercalate " " (tokenize "cd foo   bar").tail = "foo bar"
    ∧ accumulate ["~"] "foo bar" = ["~", "foo bar"]
    ∧ runCommand ⟨["~"], false, 0, []⟩ "cd foo   bar" (.reply "") false
        = .ok ⟨["~"], false, 0,
               [(LogKind.command, "cd foo   bar"),
                (LogKind.error, noSuchDirMsg "foo bar")]⟩ :=
  ⟨by decide, by decide, by decide, by decide⟩
